import Mathlib

/-!
Verification of the watermark compositor and the surrounding upload /
download state handling of the LocalFiligraneFacile (IdMark) single-page
application.

The source is a React page (`src/src/app/page.tsx` and the near-identical
variant `src/unnamed/part_000`).  The core under verification is the
`applyWatermark` canvas procedure: it allocates a canvas of the source
image's size, draws the source onto it, resolves the effective watermark
text, measures it, derives a tiling step from the image diagonal, and
tiles the text in a rotated coordinate frame.  Around it we model the
file-selection validation (`handleFileChange` / `resetState`), the error
branches of `applyWatermark`, and the download-name computation
(`handleDownload`).

Numbers are modelled as rationals.  Where IEEE-754 special values matter
(the `textWidth = 0` division), a small `JsNum` type mirrors the
JavaScript semantics of `/`, `Math.ceil` and `Math.max` on `Infinity`
and `NaN`.  The image diagonal `Math.sqrt(W*W + H*H)` is not expressible
inside `ℚ`; the compositor therefore takes the diagonal `d` as an
explicit argument, and every theorem about it constrains `d` by
`0 ≤ d ∧ d * d = W * W + H * H`, which characterises the square root.
The `for` loops over floating-point counters are modelled by fuel-based
recursion returning `Option`: `none` means the loop did not finish
within the given fuel (for every fuel, in the non-terminating case).
-/

/-! ## Data model -/

/-- A decoded bitmap.  `Content.raw id` stands for the opaque pixel data of an
original decoded image; `Content.composited base text rows` is the content of
a canvas onto which `base` was first drawn via `drawImage` and then `text`
was drawn by `fillText` at position `(x, y)` (in the rotated frame) for every
row `(y, xs)` and every `x ∈ xs`.  Rasterisation of glyphs is outside the
source, so content is kept at this draw-command level. -/
inductive Content where
  | raw (id : ℕ)
  | composited (base : Content) (text : String) (rows : List (ℚ × List ℚ))
deriving DecidableEq

/-- A bitmap with its pixel dimensions (`img.naturalWidth` / `naturalHeight`
for the source, `canvas.width` / `canvas.height` for the output). -/
structure Bitmap where
  width : ℚ
  height : ℚ
  content : Content
deriving DecidableEq

/-- The compositor's only error: `getContext('2d')` returned `null`, raised in
the source as `throw new Error("Could not get canvas context.")`. -/
inductive RenderError where
  | couldNotGetContext
deriving DecidableEq

/-- The browser environment the compositor runs against: whether a 2d context
can be acquired for a canvas of the given size, and the result of
`ctx.measureText(text).width` for a given text at a given font size. -/
structure Env where
  ctxOk : ℚ → ℚ → Bool
  measure : String → ℚ → ℚ

/-! ## JavaScript number semantics for the step computation

`repetitions = Math.ceil(diagonalLength / (textWidth * 0.7))` divides by zero
when `textWidth = 0`; JavaScript then yields `Infinity` (or `NaN` for `0/0`),
`Math.ceil` and `Math.max` propagate it, and `diagonalLength / Infinity = 0`.
`JsNum` mirrors exactly that arithmetic. -/

inductive JsNum where
  | num (q : ℚ)
  | posInf
  | negInf
  | nan
deriving DecidableEq

/-- JavaScript division of a finite number by a finite number. -/
def jsDivNum (a b : ℚ) : JsNum :=
  if b = 0 then
    if a = 0 then JsNum.nan else if 0 < a then JsNum.posInf else JsNum.negInf
  else JsNum.num (a / b)

/-- JavaScript division of a finite number by an arbitrary number (signed
zeros are identified, which is harmless here: the sign of a zero step never
influences the loops). -/
def jsDiv (a : ℚ) : JsNum → JsNum
  | JsNum.num q => jsDivNum a q
  | JsNum.posInf => JsNum.num 0
  | JsNum.negInf => JsNum.num 0
  | JsNum.nan => JsNum.nan

/-- `Math.ceil`. -/
def jsCeil : JsNum → JsNum
  | JsNum.num q => JsNum.num (⌈q⌉ : ℚ)
  | JsNum.posInf => JsNum.posInf
  | JsNum.negInf => JsNum.negInf
  | JsNum.nan => JsNum.nan

/-- `Math.max` with a finite first argument. -/
def jsMax (a : ℚ) : JsNum → JsNum
  | JsNum.num q => JsNum.num (max a q)
  | JsNum.posInf => JsNum.posInf
  | JsNum.negInf => JsNum.num a
  | JsNum.nan => JsNum.nan

/-- `const repetitions = Math.ceil(diagonalLength / (textWidth * 0.7));` -/
def repetitionsJs (d tw : ℚ) : JsNum :=
  jsCeil (jsDivNum d (tw * (7 / 10)))

/-- `const step = diagonalLength / Math.max(5, repetitions);` -/
def stepJs (d tw : ℚ) : JsNum :=
  jsDiv d (jsMax 5 (repetitionsJs d tw))

/-- The step as the rational the loops run with.  `stepJs` is non-numeric
(`NaN`) only for `d = 0`, where the loop body never runs, so the placeholder
`0` is safe there. -/
def stepQOf (d tw : ℚ) : ℚ :=
  match stepJs d tw with
  | JsNum.num q => q
  | _ => 0

/-! ## The tiling loops

`for (let y = -diagonalLength/2; y < diagonalLength/2; y += step)` and inside
it `for (let x = -diagonalLength/2; x < diagonalLength/2; x += step * 2.5)`,
drawing `fillText(text, x, y)`.  Fuel-based: `none` = fuel exhausted. -/

/-- The inner `x` loop: returns the list of `x` positions drawn for one row. -/
def innerTile : ℕ → ℚ → ℚ → ℚ → Option (List ℚ)
  | 0, x, hi, _ => if hi ≤ x then some [] else none
  | n + 1, x, hi, sx =>
    if hi ≤ x then some []
    else (innerTile n (x + sx) hi sx).map fun xs => x :: xs

/-- The outer `y` loop: each iteration runs the inner loop from `lo` with
horizontal step `step * 2.5` and records the row `(y, xs)`. -/
def outerTile (innerFuel : ℕ) : ℕ → ℚ → ℚ → ℚ → ℚ → Option (List (ℚ × List ℚ))
  | 0, y, _, hi, _ => if hi ≤ y then some [] else none
  | n + 1, y, lo, hi, step =>
    if hi ≤ y then some []
    else
      match innerTile innerFuel lo hi (step * (5 / 2)),
            outerTile innerFuel n (y + step) lo hi step with
      | some xs, some rest => some ((y, xs) :: rest)
      | _, _ => none

/-! ## The compositor -/

/-- `const text = watermarkText || "CONFIDENTIAL";` — the JavaScript `||`
falls back exactly when the string is empty (the only falsy string). -/
def effectiveText (watermarkText : String) : String :=
  if watermarkText = "" then "CONFIDENTIAL" else watermarkText

/-- `const fontSize = Math.max(12, Math.min(canvas.width, canvas.height) / 25);` -/
def fontSize (w h : ℚ) : ℚ := max 12 (min w h / 25)

/-- The canvas part of `applyWatermark` (`img.onload` handler): allocate a
`W × H` canvas, acquire the context (`RenderError` when the environment
refuses), draw the source, resolve text, font and `textWidth`, compute
`step`, and tile.  `d` is the caller-supplied value of
`Math.sqrt(W*W + H*H)` (see the file comment), `fuel` bounds both loops;
`Except.ok none` means the loops did not finish within `fuel`.  When
`stepJs` is non-numeric (`NaN`, only possible for `d = 0`, where the loop
body never runs) the placeholder step `0` is used. -/
def composite (fuel : ℕ) (env : Env) (img : Bitmap) (watermarkText : String)
    (d : ℚ) : Except RenderError (Option Bitmap) :=
  if env.ctxOk img.width img.height then
    let text := effectiveText watermarkText
    let textWidth := env.measure text (fontSize img.width img.height)
    Except.ok ((outerTile fuel fuel (-(d / 2)) (-(d / 2)) (d / 2)
        (stepQOf d textWidth)).map
      fun rows =>
        ⟨img.width, img.height, Content.composited img.content text rows⟩)
  else
    Except.error RenderError.couldNotGetContext

/-- `composite` collapsed to its success case. -/
def compositeO (fuel : ℕ) (env : Env) (img : Bitmap) (watermarkText : String)
    (d : ℚ) : Option Bitmap :=
  match composite fuel env img watermarkText d with
  | Except.ok (some b) => some b
  | _ => none

/-- The text drawn on a composited content, if any. -/
def contentText : Content → Option String
  | Content.raw _ => none
  | Content.composited _ t _ => some t

/-- The tiling rows of a composited content, if any. -/
def contentRows : Content → Option (List (ℚ × List ℚ))
  | Content.raw _ => none
  | Content.composited _ _ rows => some rows

/-- The drawn text of a compositor result. -/
def resultText (o : Option Bitmap) : Option String :=
  o.bind fun b => contentText b.content

/-- The output dimensions of a compositor result. -/
def outputDims (o : Option Bitmap) : Option (ℚ × ℚ) :=
  o.map fun b => (b.width, b.height)

/-! ## Download filename (`handleDownload`)

```
const fileNameParts = originalFile.name.split('.');
const extension = fileNameParts.pop() || 'png';
const nameWithoutExtension = fileNameParts.join('.') || 'document';
link.download =
  `${nameWithoutExtension}_watermarked.${type === 'application/pdf' ? 'png' : extension}`;
```
-/

/-- JavaScript `String.prototype.split` with the one-character separator
`'.'`, on the character list: always returns at least one (possibly empty)
group, exactly as `"".split('.') = [""]` and `"a.b".split('.') = ["a","b"]`. -/
def splitOnDot : List Char → List (List Char)
  | [] => [[]]
  | c :: cs =>
    match splitOnDot cs with
    | [] => [[]]
    | g :: gs => if c = '.' then [] :: g :: gs else (c :: g) :: gs

/-- The `link.download` filename built by `handleDownload`, given the original
file's name and whether its MIME type is `application/pdf`. -/
def downloadFileName (name : String) (isPdf : Bool) : String :=
  let fileNameParts := (splitOnDot name.data).map fun g => String.mk g
  let popped := fileNameParts.getLastD ""
  let extension := if popped = "" then "png" else popped
  let joined := String.intercalate "." fileNameParts.dropLast
  let nameWithoutExtension := if joined = "" then "document" else joined
  nameWithoutExtension ++ "_watermarked." ++ (if isPdf then "png" else extension)

/-! ## Upload state handling (`resetState` / `handleFileChange`, from
`src/unnamed/part_000`) -/

/-- The fields of a selected `File` the page reads. -/
structure FileDesc where
  name : String
  type : String
  size : ℕ
deriving DecidableEq

/-- The page's reactive state. -/
structure AppState where
  originalFile : Option FileDesc
  originalImagePreviewSrc : Option String
  watermarkText : String
  watermarkedImageSrc : Option String
  isLoading : Bool
  progress : ℕ
  error : Option String
deriving DecidableEq

/-- `resetState`: clears file, preview, output, loading, progress and error;
the watermark text input is not touched by it. -/
def resetState (s : AppState) : AppState :=
  { s with
    originalFile := none
    originalImagePreviewSrc := none
    watermarkedImageSrc := none
    isLoading := false
    progress := 0
    error := none }

def unsupportedTypeMsg : String :=
  "Unsupported file type. Please upload an image (PNG, JPG) or PDF."

def fileTooLargeMsg : String := "File is too large. Maximum size is 20MB."

/-- JavaScript `String.prototype.startsWith`, on the character lists. -/
def strStartsWith : List Char → List Char → Bool
  | [], _ => true
  | _ :: _, [] => false
  | p :: ps, c :: cs => p = c && strStartsWith ps cs

/-- `handleFileChange`: always `resetState()` first, then validate the
selected file (type, then the 20 MB size limit) and only set `originalFile`
when both checks pass. -/
def handleFileChange (s : AppState) (file : Option FileDesc) : AppState :=
  let s1 := resetState s
  match file with
  | some f =>
    if f.type ≠ "application/pdf" ∧ strStartsWith "image/".data f.type.data = false
    then { s1 with error := some unsupportedTypeMsg }
    else if 20 * 1024 * 1024 < f.size then { s1 with error := some fileTooLargeMsg }
    else { s1 with originalFile := some f }
  | none => s1

/-! ## The error branches of `applyWatermark` (`src/src/app/page.tsx`) -/

def imageLoadErrMsg : String :=
  "Failed to load image for watermarking. The image data might be corrupted or the format is unsupported by the browser for canvas operations."

/-- The `catch` branch of the canvas operations plus its `finally`:
`setError(msg)`, `setWatermarkedImageSrc(null)`, then `setIsLoading(false)`,
`setProgress(0)`. -/
def watermarkCanvasCatch (s : AppState) (msg : String) : AppState :=
  { s with
    error := some msg
    watermarkedImageSrc := none
    isLoading := false
    progress := 0 }

/-- The `img.onerror` branch of `applyWatermark`: `setError(...)`,
`setIsLoading(false)`, `setProgress(0)`, `setWatermarkedImageSrc(null)`. -/
def watermarkImageLoadError (s : AppState) : AppState :=
  { s with
    error := some imageLoadErrMsg
    isLoading := false
    progress := 0
    watermarkedImageSrc := none }

/-! ## Spec-side definitions used only for comparison -/

/-- JavaScript `String.prototype.trim`, on the character list. -/
def jsTrim (s : String) : String :=
  String.mk (((s.data.dropWhile Char.isWhitespace).reverse.dropWhile
    Char.isWhitespace).reverse)

/-- The spec's resolution formula, following its words
`text = spec.text.trim() || "CONFIDENTIAL"` (for comparison with the
code-derived `effectiveText`). -/
def specEffectiveText (s : String) : String :=
  if jsTrim s = "" then "CONFIDENTIAL" else jsTrim s

/-! ## Helper lemmas -/

/-- A composited content is never equal to its own base layer. -/
theorem composited_ne_base (c : Content) :
    ∀ t rows, Content.composited c t rows ≠ c := by
  induction c with
  | raw n => intro t rows h; exact Content.noConfusion h
  | composited c' t' rows' ih =>
    intro t rows h
    injection h with h1 _ _
    exact ih t' rows' h1

/-- Shape of a successful compositor run: the context was acquired, the outer
loop finished, and the output is the source's dimensions with the source
content as base layer and the effective text drawn on top. -/
theorem compositeO_eq_some {fuel : ℕ} {env : Env} {img : Bitmap} {wm : String}
    {d : ℚ} {b : Bitmap} (h : compositeO fuel env img wm d = some b) :
    env.ctxOk img.width img.height = true ∧
    ∃ rows, outerTile fuel fuel (-(d / 2)) (-(d / 2)) (d / 2)
        (stepQOf d (env.measure (effectiveText wm)
          (fontSize img.width img.height))) = some rows ∧
      b = ⟨img.width, img.height,
            Content.composited img.content (effectiveText wm) rows⟩ := by
  unfold compositeO composite at h
  by_cases hc : env.ctxOk img.width img.height
  · simp only [hc, if_true] at h
    cases ho : outerTile fuel fuel (-(d / 2)) (-(d / 2)) (d / 2)
        (stepQOf d (env.measure (effectiveText wm)
          (fontSize img.width img.height))) with
    | none => rw [ho] at h; simp at h
    | some rows =>
      rw [ho] at h
      simp at h
      exact ⟨hc, rows, rfl, by simp [← h]⟩
  · simp [hc] at h

/-- With a zero step the inner loop never advances: it runs out of any fuel. -/
theorem innerTile_stall {x hi : ℚ} (h : x < hi) :
    ∀ f, innerTile f x hi 0 = none := by
  intro f
  induction f with
  | zero => simp [innerTile, not_le.mpr h]
  | succ n ih => simp [innerTile, not_le.mpr h, add_zero, ih]

/-- With a zero step the outer loop never advances either (its first inner
loop already fails to finish). -/
theorem outerTile_stall {y lo hi : ℚ} (hy : y < hi) (hlo : lo < hi) :
    ∀ g f, outerTile g f y lo hi 0 = none := by
  intro g f
  cases f with
  | zero => simp [outerTile, not_le.mpr hy]
  | succ n => simp [outerTile, not_le.mpr hy, zero_mul, innerTile_stall hlo]

/-- When the outer loop finishes, the rows it produced stepped all the way
across the iteration interval. -/
theorem outerTile_length {lo hi step : ℚ} :
    ∀ f g y rows, outerTile g f y lo hi step = some rows →
      hi ≤ y + rows.length * step := by
  intro f
  induction f with
  | zero =>
    intro g y rows h
    by_cases hy : hi ≤ y
    · simp only [outerTile, if_pos hy, Option.some_inj] at h
      subst h; simpa using hy
    · simp [outerTile, hy] at h
  | succ n ih =>
    intro g y rows h
    by_cases hy : hi ≤ y
    · simp only [outerTile, if_pos hy, Option.some_inj] at h
      subst h; simpa using hy
    · simp only [outerTile, if_neg hy] at h
      cases hxi : innerTile g lo hi (step * (5 / 2)) with
      | none => rw [hxi] at h; simp at h
      | some xs =>
        cases hout : outerTile g n (y + step) lo hi step with
        | none => rw [hxi, hout] at h; simp at h
        | some rest =>
          rw [hxi, hout] at h
          simp only [Option.some_inj] at h
          subst h
          have := ih g (y + step) rest hout
          simp only [List.length_cons]
          push_cast
          push_cast at this
          linarith

/-- With a positive step and enough fuel the inner loop finishes. -/
theorem innerTile_isSome {sx : ℚ} :
    ∀ (f : ℕ) (x hi : ℚ), hi ≤ x + (f : ℚ) * sx →
      (innerTile f x hi sx).isSome = true := by
  intro f
  induction f with
  | zero =>
    intro x hi h
    simp only [Nat.cast_zero, zero_mul, add_zero] at h
    simp [innerTile, h]
  | succ n ih =>
    intro x hi h
    by_cases hx : hi ≤ x
    · simp [innerTile, hx]
    · have h2 : hi ≤ (x + sx) + n * sx := by push_cast at h ⊢; linarith
      obtain ⟨xs, hxs⟩ := Option.isSome_iff_exists.mp (ih (x + sx) hi h2)
      simp [innerTile, hx, hxs]

/-- With a positive step, a finishing inner loop and enough fuel the outer
loop finishes. -/
theorem outerTile_isSome {lo hi step : ℚ} (g : ℕ)
    (hg : (innerTile g lo hi (step * (5 / 2))).isSome = true) :
    ∀ (f : ℕ) (y : ℚ), hi ≤ y + (f : ℚ) * step →
      (outerTile g f y lo hi step).isSome = true := by
  intro f
  induction f with
  | zero =>
    intro y h
    simp only [Nat.cast_zero, zero_mul, add_zero] at h
    simp [outerTile, h]
  | succ n ih =>
    intro y h
    by_cases hy : hi ≤ y
    · simp [outerTile, hy]
    · obtain ⟨xs, hxs⟩ := Option.isSome_iff_exists.mp hg
      have h2 : hi ≤ (y + step) + n * step := by push_cast at h ⊢; linarith
      obtain ⟨rest, hrest⟩ := Option.isSome_iff_exists.mp (ih (y + step) h2)
      simp [outerTile, hy, hxs, hrest]

/-- For a positive measured text width the step is the plain rational
`diagonal / max(5, ⌈diagonal / (textWidth * 0.7)⌉)`. -/
theorem stepQOf_of_pos {d tw : ℚ} (htw : 0 < tw) :
    stepQOf d tw = d / max 5 ((⌈d / (tw * (7 / 10))⌉ : ℤ) : ℚ) := by
  have h1 : tw * (7 / 10) ≠ 0 := by positivity
  have h2 : max (5 : ℚ) ((⌈d / (tw * (7 / 10))⌉ : ℤ) : ℚ) ≠ 0 := by
    have := le_max_left (5 : ℚ) ((⌈d / (tw * (7 / 10))⌉ : ℤ) : ℚ)
    intro h0; rw [h0] at this; linarith
  simp [stepQOf, stepJs, repetitionsJs, jsDivNum, jsCeil, jsMax, jsDiv, h1, h2]

/-! ## A concrete environment and image for witnesses -/

/-- A browser that always hands out a context and measures every text as 100
pixels wide. -/
def envA : Env := ⟨fun _ _ => true, fun _ _ => 100⟩

/-- A 30 × 40 source image (diagonal 50). -/
def imgA : Bitmap := ⟨30, 40, Content.raw 0⟩

/-- The rows the tiling produces for diagonal 50 and step 10: five rows of
two columns each. -/
def rowsA : List (ℚ × List ℚ) :=
  [(-25, [-25, 0]), (-15, [-25, 0]), (-5, [-25, 0]), (5, [-25, 0]),
    (15, [-25, 0])]

theorem stepQOf_50_100 : stepQOf 50 100 = 10 := by
  have hc : (⌈(50 : ℚ) / (100 * (7 / 10))⌉ : ℤ) = 1 := by
    norm_num [Int.ceil_eq_iff]
  rw [stepQOf_of_pos (by norm_num), hc]
  norm_num

set_option maxHeartbeats 800000 in
theorem outerTile_eval :
    outerTile 8 8 (-(50 / 2)) (-(50 / 2)) (50 / 2) 10 = some rowsA := by
  norm_num [outerTile, innerTile, rowsA]

theorem composite_envA (c : Content) (wm : String) (hwm : wm ≠ "") :
    composite 8 envA ⟨30, 40, c⟩ wm 50 =
      Except.ok (some ⟨30, 40, Content.composited c wm rowsA⟩) := by
  have h1 : effectiveText wm = wm := by simp [effectiveText, hwm]
  simp only [composite, envA, h1, if_true, stepQOf_50_100, outerTile_eval]
  rfl

theorem compositeO_envA (c : Content) (wm : String) (hwm : wm ≠ "") :
    compositeO 8 envA ⟨30, 40, c⟩ wm 50 =
      some ⟨30, 40, Content.composited c wm rowsA⟩ := by
  simp [compositeO, composite_envA c wm hwm]

/-! ## Claims -/

/-- C3: the download filename.  The claimed behaviour holds for
`"passport.pdf"`, but for the extensionless image name `"scan"` the code's
`split('.').pop()` removes the single group `"scan"` itself, so the
"extension" becomes `"scan"` and the remaining base name is empty and falls
back to `"document"`: the file is downloaded as `"document_watermarked.scan"`,
not `"scan_watermarked.png"` as the claim (and the code's own
`Default to png if no extension` comment) states. -/
theorem downloadFileName_eval :
    downloadFileName "passport.pdf" true = "passport_watermarked.png" ∧
    downloadFileName "scan" false = "document_watermarked.scan" ∧
    downloadFileName "scan" false ≠ "scan_watermarked.png" := by
  refine ⟨?_, ?_, ?_⟩ <;> decide

/-- C6: a file of exactly 20 MiB + 1 bytes is rejected with the
file-too-large error and never becomes `originalFile` (so it is never decoded
or composited), while a file of exactly 20 MiB passes validation. -/
theorem fileSize_boundary (s : AppState) (name type : String)
    (hty : type = "application/pdf" ∨
      strStartsWith "image/".data type.data = true) :
    (handleFileChange s (some ⟨name, type, 20 * 1024 * 1024 + 1⟩)).error =
      some fileTooLargeMsg ∧
    (handleFileChange s (some ⟨name, type, 20 * 1024 * 1024 + 1⟩)).originalFile
      = none ∧
    (handleFileChange s (some ⟨name, type, 20 * 1024 * 1024⟩)).originalFile =
      some ⟨name, type, 20 * 1024 * 1024⟩ ∧
    (handleFileChange s (some ⟨name, type, 20 * 1024 * 1024⟩)).error = none := by
  have hval : ¬ (type ≠ "application/pdf" ∧
      strStartsWith "image/".data type.data = false) := by
    rcases hty with h | h
    · intro hcon; exact hcon.1 h
    · intro hcon; rw [h] at hcon; simp at hcon
  refine ⟨?_, ?_, ?_, ?_⟩ <;>
    simp [handleFileChange, resetState, hval]

/-- C8: both error branches of `applyWatermark` — the canvas-operations
`catch` and the image-load `onerror` — discard the in-progress output
(`watermarkedImageSrc := null`), report the error, and leave the page
re-triable (`isLoading := false`). -/
theorem watermark_error_discards_output (s : AppState) (msg : String) :
    (watermarkCanvasCatch s msg).watermarkedImageSrc = none ∧
    (watermarkCanvasCatch s msg).error = some msg ∧
    (watermarkCanvasCatch s msg).isLoading = false ∧
    (watermarkImageLoadError s).watermarkedImageSrc = none ∧
    (watermarkImageLoadError s).error = some imageLoadErrMsg ∧
    (watermarkImageLoadError s).isLoading = false := by
  simp [watermarkCanvasCatch, watermarkImageLoadError]

/-- C10: because `handleFileChange` runs `resetState()` before validating,
any rejected selection (bad MIME type or size over 20 MiB) leaves the page
with no original file, no preview, no watermarked image, no loading state —
only the error message — regardless of what was loaded before. -/
theorem invalid_selection_resets_state (s : AppState) (f : FileDesc)
    (hinv : (f.type ≠ "application/pdf" ∧
        strStartsWith "image/".data f.type.data = false) ∨
      20 * 1024 * 1024 < f.size) :
    (handleFileChange s (some f)).originalFile = none ∧
    (handleFileChange s (some f)).originalImagePreviewSrc = none ∧
    (handleFileChange s (some f)).watermarkedImageSrc = none ∧
    (handleFileChange s (some f)).error ≠ none ∧
    (handleFileChange s (some f)).isLoading = false ∧
    (handleFileChange s (some f)).progress = 0 := by
  by_cases hty : f.type ≠ "application/pdf" ∧
      strStartsWith "image/".data f.type.data = false
  · refine ⟨?_, ?_, ?_, ?_, ?_, ?_⟩ <;>
      simp [handleFileChange, resetState, hty]
  · have hsize : 20 * 1024 * 1024 < f.size := hinv.resolve_left hty
    refine ⟨?_, ?_, ?_, ?_, ?_, ?_⟩ <;>
      simp [handleFileChange, resetState, hty, hsize]

/-- Witness for C6 at a concrete PNG file name and a concrete prior state. -/
theorem fileSize_boundary_witness :
    (handleFileChange
        ⟨some ⟨"old", "image/png", 5⟩, some "p", "w", some "wmk", true, 50,
          none⟩
        (some ⟨"scan", "image/png", 20 * 1024 * 1024 + 1⟩)).error =
      some fileTooLargeMsg ∧
    (handleFileChange
        ⟨some ⟨"old", "image/png", 5⟩, some "p", "w", some "wmk", true, 50,
          none⟩
        (some ⟨"scan", "image/png", 20 * 1024 * 1024 + 1⟩)).originalFile =
      none ∧
    (handleFileChange
        ⟨some ⟨"old", "image/png", 5⟩, some "p", "w", some "wmk", true, 50,
          none⟩
        (some ⟨"scan", "image/png", 20 * 1024 * 1024⟩)).originalFile =
      some ⟨"scan", "image/png", 20 * 1024 * 1024⟩ ∧
    (handleFileChange
        ⟨some ⟨"old", "image/png", 5⟩, some "p", "w", some "wmk", true, 50,
          none⟩
        (some ⟨"scan", "image/png", 20 * 1024 * 1024⟩)).error = none :=
  fileSize_boundary _ "scan" "image/png" (Or.inr (by decide))

/-- Witness for C10: a `text/plain` selection wipes a fully-loaded state. -/
theorem invalid_selection_resets_state_witness :
    (handleFileChange
        ⟨some ⟨"old", "image/png", 5⟩, some "p", "w", some "wmk", true, 50,
          none⟩
        (some ⟨"notes", "text/plain", 5⟩)).originalFile = none ∧
    (handleFileChange
        ⟨some ⟨"old", "image/png", 5⟩, some "p", "w", some "wmk", true, 50,
          none⟩
        (some ⟨"notes", "text/plain", 5⟩)).originalImagePreviewSrc = none ∧
    (handleFileChange
        ⟨some ⟨"old", "image/png", 5⟩, some "p", "w", some "wmk", true, 50,
          none⟩
        (some ⟨"notes", "text/plain", 5⟩)).watermarkedImageSrc = none ∧
    (handleFileChange
        ⟨some ⟨"old", "image/png", 5⟩, some "p", "w", some "wmk", true, 50,
          none⟩
        (some ⟨"notes", "text/plain", 5⟩)).error ≠ none ∧
    (handleFileChange
        ⟨some ⟨"old", "image/png", 5⟩, some "p", "w", some "wmk", true, 50,
          none⟩
        (some ⟨"notes", "text/plain", 5⟩)).isLoading = false ∧
    (handleFileChange
        ⟨some ⟨"old", "image/png", 5⟩, some "p", "w", some "wmk", true, 50,
          none⟩
        (some ⟨"notes", "text/plain", 5⟩)).progress = 0 :=
  invalid_selection_resets_state _ _ (Or.inl (by decide))

/-- C2: the step computation is NOT guarded against `textWidth = 0`.  For the
30 × 40 source (diagonal 50) and measured text width 0, JavaScript yields
`repetitions = Infinity` and `step = 50 / Infinity = 0`, and with a zero step
the `y` loop never advances: for every fuel bound the tiling fails to finish,
i.e. the real loop runs forever.  Consequently `composite` never reaches the
serialisation step for any fuel (`Except.ok none` for all fuels), contrary to
the claimed positive-minimum-step fallback. -/
theorem step_unguarded_textWidth_zero :
    repetitionsJs 50 0 = JsNum.posInf ∧
    stepJs 50 0 = JsNum.num 0 ∧
    stepQOf 50 0 = 0 ∧
    (∀ g f, outerTile g f (-(50 / 2)) (-(50 / 2)) (50 / 2) (stepQOf 50 0) =
      none) ∧
    (∀ fuel, composite fuel ⟨fun _ _ => true, fun _ _ => 0⟩
        ⟨30, 40, Content.raw 0⟩ "CONFIDENTIAL" 50 = Except.ok none) := by
  have h1 : repetitionsJs 50 0 = JsNum.posInf := by
    norm_num [repetitionsJs, jsDivNum, jsCeil]
  have h2 : stepJs 50 0 = JsNum.num 0 := by
    norm_num [stepJs, h1, jsMax, jsDiv]
  have h3 : stepQOf 50 0 = 0 := by rw [stepQOf, h2]
  have h4 : ∀ g f, outerTile g f (-(50 / 2)) (-(50 / 2)) (50 / 2)
      (stepQOf 50 0) = none := by
    intro g f
    rw [h3]
    exact outerTile_stall (by norm_num) (by norm_num) g f
  refine ⟨h1, h2, h3, h4, fun fuel => ?_⟩
  simp only [composite, if_true]
  rw [h4 fuel fuel]
  rfl

/-- C4: `composite` fails with `RenderError` exactly when the environment
refuses to hand out a drawing context for the source's dimensions — no other
error path exists — and in an environment that refuses zero-area surfaces
(the spec's reading of `getContext`), every source with non-positive width or
height yields `RenderError`. -/
theorem composite_renderError_iff (fuel : ℕ) (env : Env) (img : Bitmap)
    (wm : String) (d : ℚ) :
    (composite fuel env img wm d = Except.error RenderError.couldNotGetContext
      ↔ env.ctxOk img.width img.height = false) ∧
    ((∀ a b : ℚ, a ≤ 0 ∨ b ≤ 0 → env.ctxOk a b = false) →
      img.width ≤ 0 ∨ img.height ≤ 0 →
      composite fuel env img wm d =
        Except.error RenderError.couldNotGetContext) := by
  constructor
  · by_cases hc : env.ctxOk img.width img.height
    · simp [composite, hc]
    · simp only [Bool.not_eq_true] at hc
      simp [composite, hc]
  · intro hzero hwh
    have hc := hzero img.width img.height hwh
    simp [composite, hc]

/-- A browser that refuses a context exactly for non-positive dimensions. -/
def envB : Env :=
  ⟨fun a b => decide (0 < a) && decide (0 < b), fun _ _ => 100⟩

/-- Witness for C4: a zero-width source in the refusing environment. -/
theorem composite_renderError_iff_witness :
    composite 1 envB ⟨0, 40, Content.raw 0⟩ "T" 0 =
      Except.error RenderError.couldNotGetContext :=
  (composite_renderError_iff 1 envB ⟨0, 40, Content.raw 0⟩ "T" 0).2
    (by
      intro a b h
      rcases h with h | h
      · simp [envB, decide_eq_false (not_lt.mpr h)]
      · simp [envB, decide_eq_false (not_lt.mpr h)])
    (Or.inl (by norm_num))

/-- C5: whenever the compositor produces an output bitmap, its dimensions are
exactly the source's width and height — the base image is neither cropped nor
scaled. -/
theorem composite_preserves_dims (fuel : ℕ) (env : Env) (img : Bitmap)
    (wm : String) (d : ℚ) :
    ∀ p, outputDims (compositeO fuel env img wm d) = some p →
      p = (img.width, img.height) := by
  intro p hp
  cases ho : compositeO fuel env img wm d with
  | none => rw [ho] at hp; simp [outputDims] at hp
  | some b =>
    obtain ⟨-, rows, -, hb⟩ := compositeO_eq_some ho
    rw [ho] at hp
    rw [hb] at hp
    simp [outputDims] at hp
    exact hp.symm

/-- Witness for C5 on the 30 × 40 image. -/
theorem composite_preserves_dims_witness :
    ((30 : ℚ), (40 : ℚ)) = (imgA.width, imgA.height) :=
  composite_preserves_dims 8 envA imgA "X" 50 (30, 40) (by
    rw [show imgA = (⟨30, 40, Content.raw 0⟩ : Bitmap) from rfl,
      compositeO_envA (Content.raw 0) "X" (by decide)]
    rfl)

/-- C1 counterexample: with the whitespace-only watermark text `"   "` the
compositor draws `"   "` itself — the code has no `trim()`, so the claimed
formula `spec.text.trim() || "CONFIDENTIAL"` (which gives `"CONFIDENTIAL"`
here) disagrees with the code. -/
theorem effectiveText_no_trim_counterexample :
    resultText (compositeO 8 envA imgA "   " 50) = some "   " ∧
    specEffectiveText "   " = "CONFIDENTIAL" ∧
    ("   " : String) ≠ "CONFIDENTIAL" := by
  refine ⟨?_, by decide, by decide⟩
  rw [show imgA = (⟨30, 40, Content.raw 0⟩ : Bitmap) from rfl,
    compositeO_envA (Content.raw 0) "   " (by decide)]
  rfl

/-- C1 (amended): the fallback to `"CONFIDENTIAL"` applies only to the
exactly-empty watermark text (JavaScript `||`, no trimming): every text the
compositor actually draws equals `spec.text` when it is non-empty — including
whitespace-only text — and `"CONFIDENTIAL"` when it is empty. -/
theorem composite_effectiveText_amended (fuel : ℕ) (env : Env) (img : Bitmap)
    (wm : String) (d : ℚ) (t : String)
    (h : resultText (compositeO fuel env img wm d) = some t) :
    t = (if wm = "" then "CONFIDENTIAL" else wm) := by
  cases ho : compositeO fuel env img wm d with
  | none => rw [ho] at h; simp [resultText] at h
  | some b =>
    obtain ⟨-, rows, -, hb⟩ := compositeO_eq_some ho
    rw [ho, hb] at h
    simp [resultText, contentText, effectiveText] at h
    exact h.symm

/-- Witness for C1 (amended) at the whitespace-only text. -/
theorem composite_effectiveText_amended_witness :
    ("   " : String) =
      (if ("   " : String) = "" then "CONFIDENTIAL" else "   ") :=
  composite_effectiveText_amended 8 envA imgA "   " 50 "   " (by
    rw [show imgA = (⟨30, 40, Content.raw 0⟩ : Bitmap) from rfl,
      compositeO_envA (Content.raw 0) "   " (by decide)]
    rfl)

/-- C9: the compositor never mutates its source: double watermarking layers
the second text over the already-watermarked bitmap (whose content keeps the
first watermark as a strict sub-layer), so it can never equal a single
application to the original — for any fuels, environments and diagonals. -/
theorem composite_not_cumulative (f1 f2 f3 : ℕ) (e1 e2 e3 : Env)
    (img : Bitmap) (wmA wmB : String) (d1 d2 d3 : ℚ)
    (h1 : ((compositeO f1 e1 img wmA d1).bind
        fun b1 => compositeO f2 e2 b1 wmB d2).isSome = true)
    (h2 : (compositeO f3 e3 img wmB d3).isSome = true) :
    ((compositeO f1 e1 img wmA d1).bind fun b1 => compositeO f2 e2 b1 wmB d2)
      ≠ compositeO f3 e3 img wmB d3 := by
  obtain ⟨b2, hb2⟩ := Option.isSome_iff_exists.mp h1
  obtain ⟨b3, hb3⟩ := Option.isSome_iff_exists.mp h2
  obtain ⟨b1, hb1, hb12⟩ := Option.bind_eq_some.mp hb2
  obtain ⟨-, rows1, -, hs1⟩ := compositeO_eq_some hb1
  obtain ⟨-, rows2, -, hs2⟩ := compositeO_eq_some hb12
  obtain ⟨-, rows3, -, hs3⟩ := compositeO_eq_some hb3
  rw [hb2, hb3]
  intro heq
  injection heq with heq
  rw [hs2, hs3] at heq
  injection heq with _ _ hc
  injection hc with hbase _ _
  have hb1c : b1.content =
      Content.composited img.content (effectiveText wmA) rows1 := by
    rw [hs1]
  rw [hb1c] at hbase
  exact composited_ne_base _ _ _ hbase

/-- Witness for C9: double watermarking the 30 × 40 image with "A" then "B"
differs from watermarking it once with "B". -/
theorem composite_not_cumulative_witness :
    ((compositeO 8 envA imgA "A" 50).bind
        fun b1 => compositeO 8 envA b1 "B" 50) ≠
      compositeO 8 envA imgA "B" 50 :=
  composite_not_cumulative 8 8 8 envA envA envA imgA "A" "B" 50 50 50
    (by
      rw [show imgA = (⟨30, 40, Content.raw 0⟩ : Bitmap) from rfl,
        compositeO_envA (Content.raw 0) "A" (by decide)]
      simp [compositeO_envA (Content.composited (Content.raw 0) "A" rowsA)
        "B" (by decide)])
    (by
      rw [show imgA = (⟨30, 40, Content.raw 0⟩ : Bitmap) from rfl,
        compositeO_envA (Content.raw 0) "B" (by decide)]
      rfl)

/-- C7: for a positive-area source and a positive measured text width, the
`max(5, repetitions)` floor keeps the step at most `diagonal / 5` (and
positive), so every finished run of the vertical tiling loop has at least 5
rows — and such a finished run exists (for sufficient fuel). -/
theorem tiling_at_least_five_rows (fuel : ℕ) (env : Env) (img : Bitmap)
    (wm : String) (d : ℚ)
    (hW : 0 < img.width) (hH : 0 < img.height) (hd0 : 0 ≤ d)
    (hd : d * d = img.width * img.width + img.height * img.height)
    (htw : 0 < env.measure (effectiveText wm) (fontSize img.width img.height))
    (hctx : env.ctxOk img.width img.height = true) :
    (0 < stepQOf d
        (env.measure (effectiveText wm) (fontSize img.width img.height)) ∧
      stepQOf d
        (env.measure (effectiveText wm) (fontSize img.width img.height)) ≤
        d / 5) ∧
    (∀ b rows, compositeO fuel env img wm d = some b →
      contentRows b.content = some rows → 5 ≤ rows.length) ∧
    (∃ f2 b rows, compositeO f2 env img wm d = some b ∧
      contentRows b.content = some rows ∧ 5 ≤ rows.length) := by
  set tw := env.measure (effectiveText wm) (fontSize img.width img.height)
    with htw_def
  have hdpos : 0 < d := by
    rcases lt_or_eq_of_le hd0 with h | h
    · exact h
    · exfalso
      have h1 : 0 < img.width * img.width + img.height * img.height := by
        positivity
      rw [← hd, ← h, mul_zero] at h1
      exact lt_irrefl 0 h1
  set M : ℚ := max 5 ((⌈d / (tw * (7 / 10))⌉ : ℤ) : ℚ) with hM
  have hM5 : (5 : ℚ) ≤ M := le_max_left _ _
  have hMpos : (0 : ℚ) < M := by linarith
  have hstep_eq : stepQOf d tw = d / M := stepQOf_of_pos htw
  have hstep_pos : 0 < stepQOf d tw := by
    rw [hstep_eq]; positivity
  have hstep_le : stepQOf d tw ≤ d / 5 := by
    rw [hstep_eq]
    gcongr
  have key : ∀ (g f : ℕ) rows,
      outerTile g f (-(d / 2)) (-(d / 2)) (d / 2) (stepQOf d tw) =
        some rows → 5 ≤ rows.length := by
    intro g f rows hrows
    have hlen := outerTile_length f g (-(d / 2)) rows hrows
    rw [hstep_eq] at hlen
    have hd2 : d ≤ (rows.length : ℚ) * d / M := by
      rw [mul_div_assoc]
      linarith
    have h3 : d * M ≤ (rows.length : ℚ) * d := (le_div_iff₀ hMpos).mp hd2
    have hM_le : M ≤ (rows.length : ℚ) := by
      by_contra hcon
      push_neg at hcon
      nlinarith [mul_pos (sub_pos.mpr hcon) hdpos]
    have h5 : (5 : ℚ) ≤ (rows.length : ℚ) := le_trans hM5 hM_le
    exact_mod_cast h5
  refine ⟨⟨hstep_pos, hstep_le⟩, ?_, ?_⟩
  · intro b rows hb hrows
    obtain ⟨-, rows0, houter, hbshape⟩ := compositeO_eq_some hb
    rw [hbshape] at hrows
    simp [contentRows] at hrows
    rw [← hrows]
    exact key fuel fuel rows0 houter
  · obtain ⟨n, hn⟩ := exists_nat_ge (d / stepQOf d tw)
    have hfuel : d ≤ (n : ℚ) * stepQOf d tw := by
      rw [div_le_iff₀ hstep_pos] at hn
      linarith
    have hstep_sx : stepQOf d tw ≤ stepQOf d tw * (5 / 2) := by
      nlinarith [hstep_pos]
    have hinner :
        (innerTile n (-(d / 2)) (d / 2) (stepQOf d tw * (5 / 2))).isSome =
          true := by
      apply innerTile_isSome n (-(d / 2)) (d / 2)
      have hmul : (n : ℚ) * stepQOf d tw ≤
          (n : ℚ) * (stepQOf d tw * (5 / 2)) :=
        mul_le_mul_of_nonneg_left hstep_sx (Nat.cast_nonneg n)
      linarith
    have houter_some := outerTile_isSome n hinner n (-(d / 2)) (by linarith)
    obtain ⟨rows, hrows⟩ := Option.isSome_iff_exists.mp houter_some
    refine ⟨n, ⟨img.width, img.height,
        Content.composited img.content (effectiveText wm) rows⟩, rows, ?_,
      by simp [contentRows], key n n rows hrows⟩
    simp only [compositeO, composite, hctx, if_true, ← htw_def]
    rw [hrows]
    rfl

/-- Witness for C7 on the 30 × 40 image (diagonal 50, text width 100). -/
theorem tiling_at_least_five_rows_witness :
    (0 < stepQOf 50
        (envA.measure (effectiveText "X") (fontSize imgA.width imgA.height)) ∧
      stepQOf 50
        (envA.measure (effectiveText "X") (fontSize imgA.width imgA.height)) ≤
        50 / 5) ∧
    (∀ b rows, compositeO 8 envA imgA "X" 50 = some b →
      contentRows b.content = some rows → 5 ≤ rows.length) ∧
    (∃ f2 b rows, compositeO f2 envA imgA "X" 50 = some b ∧
      contentRows b.content = some rows ∧ 5 ≤ rows.length) :=
  tiling_at_least_five_rows 8 envA imgA "X" 50 (by norm_num [imgA])
    (by norm_num [imgA]) (by norm_num) (by norm_num [imgA])
    (by norm_num [envA]) rfl
